import Mathlib

set_option maxHeartbeats 1000000

namespace MediPulse

/-! Shallow embedding of `src/app.py` (MediPulseAI — The Diabetic Analyzer):
the `/predict` route with its field parsing, label encoding, scaling,
classifier call, thresholding and best-effort history write, together with
the MongoDB-backed history helpers `add_to_history`, `get_history` and
`clear_user_history`.  Float arithmetic is modelled over `ℚ`; the fitted
encoder vocabularies, the scaler transform and the classifier are data of
an `Env` record (they are loaded from pickled artifacts at startup and are
read-only afterwards). -/

/-- Decimal value of one digit character, as Python's `int()`/`float()`
accept them. -/
def digit? (c : Char) : Option Nat :=
  if c.isDigit then some (c.toNat - 48) else none

/-- Accumulator pass over a digit run. -/
def digitsAux (acc : Nat) : List Char → Option Nat
  | [] => some acc
  | c :: cs =>
      match digit? c with
      | some d => digitsAux (acc * 10 + d) cs
      | none => none

/-- Value of a nonempty run of digit characters. -/
def digitsVal? (cs : List Char) : Option Nat :=
  if cs.isEmpty then none else digitsAux 0 cs

/-- Python `int(s)` on decimal strings: optional sign, then digits
(line 173–174 of `app.py` uses it for hypertension / heart_disease). -/
def parseInt? (s : String) : Option Int :=
  match s.data with
  | '-' :: rest => (digitsVal? rest).map (fun n => -(n : Int))
  | '+' :: rest => (digitsVal? rest).map (fun n => (n : Int))
  | cs          => (digitsVal? cs).map (fun n => (n : Int))

/-- Digit skeleton of an unsigned decimal literal: integer part, value of
the fractional digit run, and its length. -/
structure DecParts where
  intPart : Nat
  fracVal : Nat
  fracLen : Nat
deriving DecidableEq, Repr

/-- Unsigned decimal, optionally with a fractional part: digits, then
optionally a dot and the fractional digits (a second dot makes the digit
run invalid, as in Python). -/
def parseUDec? (cs : List Char) : Option DecParts :=
  match cs.dropWhile (fun c => c != '.') with
  | [] => (digitsVal? cs).map (fun n => ⟨n, 0, 0⟩)
  | _ :: f =>
      match digitsVal? (cs.takeWhile (fun c => c != '.')), digitsVal? f with
      | some n, some m => some ⟨n, m, f.length⟩
      | _, _ => none

/-- Rational value of a decimal digit skeleton. -/
def DecParts.val (d : DecParts) : ℚ :=
  (d.intPart : ℚ) + (d.fracVal : ℚ) / (10 : ℚ) ^ d.fracLen

/-- Python `float(s)` on decimal strings: optional sign, digits, optional
fractional part (used for age, bmi, HbA1c_level, blood_glucose_level). -/
def parseRat? (s : String) : Option ℚ :=
  match s.data with
  | '-' :: rest => (parseUDec? rest).map (fun d => -d.val)
  | '+' :: rest => (parseUDec? rest).map (fun d => d.val)
  | cs          => (parseUDec? cs).map (fun d => d.val)

/-- Round to the nearest integer, ties to even — Python's `round`. -/
def roundHalfEven (x : ℚ) : ℤ :=
  if Int.fract x < 1 / 2 then Int.floor x
  else if 1 / 2 < Int.fract x then Int.floor x + 1
  else if Int.floor x % 2 = 0 then Int.floor x else Int.floor x + 1

/-- Python `round(x, 1)`: one decimal place. -/
def round1 (x : ℚ) : ℚ := (roundHalfEven (x * 10) : ℚ) / 10

/-- A value as stored in the history record's `inputs` mapping — the Python
dict mixes raw strings and numbers. -/
inductive DispVal
  | s (v : String)
  | q (v : ℚ)
deriving DecidableEq, Repr

/-- One document of the `history` collection, as written by
`add_to_history`: `created_at` (from `datetime.utcnow()`) is the sortable
creation instant, distinct from the display `timestamp` string. -/
structure HistoryDoc where
  username : String
  timestamp : String
  inputs : List (String × DispVal)
  result : String
  result_type : String
  probability : ℚ
  created_at : Nat
deriving DecidableEq, Repr

/-- `request.form`: a multi-dict queried by key; lookup returns the first
value bound to the key. -/
abbrev Form := List (String × String)

/-- `request.form[k]` successful lookup (`none` models the raised
`KeyError`). -/
def formGet (form : Form) (k : String) : Option String :=
  (form.find? (fun e => e.1 == k)).map (fun e => e.2)

/-- The exceptions distinguished by the route's `except` clauses. -/
inductive PyErr
  | keyError (field : String)
  | valueError
  | otherError
deriving DecidableEq, Repr

/-- The eight parsed form values (lines 171–178 of `app.py`). -/
structure Parsed where
  gender : String
  age : ℚ
  hypertension : ℤ
  heart_disease : ℤ
  smoking_history : String
  bmi : ℚ
  hba1c : ℚ
  glucose : ℚ
deriving DecidableEq, Repr

/-- Process-wide read-only model state: the two fitted label-encoder
vocabularies (`le_gender.pkl`, `le_smoking.pkl`), the scaler transform on
one row, and the classifier producing the positive-class probability. -/
structure Env where
  genderClasses : List String
  smokingClasses : List String
  scaler : List ℚ → List ℚ
  model : List ℚ → ℚ

/-- What the route renders back: success carries `prediction_text`,
`result_type` and `probability` exactly as passed to the template; the
three error shapes are the 400/400/500 handlers. -/
inductive PredictResponse
  | ok (prediction_text : String) (result_type : String) (probability : ℚ)
  | missingField (field : String)
  | invalidValue
  | unexpectedError
deriving DecidableEq, Repr

/-- `request.form[k]` with the `KeyError` made explicit. -/
def getStr (form : Form) (k : String) : Except PyErr String :=
  match formGet form k with
  | some v => .ok v
  | none => .error (.keyError k)

/-- `float(request.form[k])`: a missing key raises `KeyError`, a present
but unparseable value raises `ValueError`. -/
def getFloat (form : Form) (k : String) : Except PyErr ℚ := do
  let s ← getStr form k
  match parseRat? s with
  | some q => pure q
  | none => .error .valueError

/-- `int(request.form[k])`. -/
def getInt (form : Form) (k : String) : Except PyErr ℤ := do
  let s ← getStr form k
  match parseInt? s with
  | some n => pure n
  | none => .error .valueError

/-- Lines 171–178 of `app.py`: the eight field reads, in source order. -/
def readForm (form : Form) : Except PyErr Parsed := do
  let gender ← getStr form "gender"
  let age ← getFloat form "age"
  let hypertension ← getInt form "hypertension"
  let heart_disease ← getInt form "heart_disease"
  let smoking_history ← getStr form "smoking_history"
  let bmi ← getFloat form "bmi"
  let hba1c ← getFloat form "HbA1c_level"
  let glucose ← getFloat form "blood_glucose_level"
  pure ⟨gender, age, hypertension, heart_disease, smoking_history, bmi, hba1c, glucose⟩

/-- `LabelEncoder.transform([v])[0]`: the index of `v` in the fitted class
list; an unseen label raises `ValueError`. -/
def leTransform (classes : List String) (v : String) : Except PyErr Nat :=
  match classes.indexOf? v with
  | some i => .ok i
  | none => .error .valueError

/-- `add_to_history` (lines 76–85): one `insert_one` into the `history`
collection with display timestamp `ts` and creation instant `now`. -/
def add_to_history (hist : List HistoryDoc) (username ts : String)
    (inputs : List (String × DispVal)) (result result_type : String)
    (probability : ℚ) (now : Nat) : List HistoryDoc :=
  hist ++ [⟨username, ts, inputs, result, result_type, probability, now⟩]

/-- Insertion step of a sort by `created_at` descending. -/
def insertDesc (r : HistoryDoc) : List HistoryDoc → List HistoryDoc
  | [] => [r]
  | x :: xs =>
      if r.created_at ≤ x.created_at then x :: insertDesc r xs
      else r :: x :: xs

/-- The MongoDB `.sort("created_at", DESCENDING)`. -/
def sortDesc (l : List HistoryDoc) : List HistoryDoc := l.foldr insertDesc []

/-- `get_history` (lines 87–92): filter by username, sort by `created_at`
descending, take `limit`. -/
def get_history (hist : List HistoryDoc) (username : String) (limit : Nat) :
    List HistoryDoc :=
  (sortDesc (hist.filter (fun r => r.username == username))).take limit

/-- `clear_user_history` (lines 94–95): `delete_many` on the username. -/
def clear_user_history (hist : List HistoryDoc) (username : String) :
    List HistoryDoc :=
  hist.filter (fun r => r.username != username)

/-- The `inputs` dict written to history (lines 197–206): booleans are
displayed as Yes/No via Python truthiness of the parsed integer. -/
def inputsDict (p : Parsed) : List (String × DispVal) :=
  [("Gender", .s p.gender), ("Age", .q p.age),
   ("Hypertension", .s (if p.hypertension ≠ 0 then "Yes" else "No")),
   ("Heart Disease", .s (if p.heart_disease ≠ 0 then "Yes" else "No")),
   ("Smoking History", .s p.smoking_history),
   ("BMI", .q p.bmi), ("HbA1c Level", .q p.hba1c),
   ("Blood Glucose", .q p.glucose)]

/-- The body of the `try` block of the `/predict` route (lines 170–215).
`insertFails` models the Mongo `insert_one` raising at the moment of the
history write; `auth` is `current_user` when authenticated; `now` and `ts`
are the creation instant and display timestamp taken at request time. -/
def predictBody (env : Env) (hist : List HistoryDoc) (insertFails : Bool)
    (auth : Option String) (form : Form) (now : Nat) (ts : String) :
    Except PyErr (PredictResponse × List HistoryDoc) := do
  let p ← readForm form
  let gender_enc ← leTransform env.genderClasses p.gender
  let smoking_enc ← leTransform env.smokingClasses p.smoking_history
  let raw : List ℚ := [(gender_enc : ℚ), p.age, (p.hypertension : ℚ),
                       (p.heart_disease : ℚ), (smoking_enc : ℚ), p.bmi,
                       p.hba1c, p.glucose]
  let raw_scaled := env.scaler raw
  let prediction := env.model raw_scaled
  let probability := round1 (prediction * 100)
  let result_type := if probability ≥ 50 then "diabetic" else "not_diabetic"
  let result := if probability ≥ 50 then "⚠️ High Diabetes Risk Detected"
                else "✅ Low Diabetes Risk"
  let hist' ←
    match auth with
    | some username =>
        if insertFails then Except.error PyErr.otherError
        else pure (add_to_history hist username ts (inputsDict p)
                     result result_type probability now)
    | none => pure hist
  pure (PredictResponse.ok result result_type probability, hist')

/-- The `/predict` route (lines 168–228): the `try` body plus the three
`except` handlers.  On any raised error the history collection is left as
it was. -/
def predict (env : Env) (hist : List HistoryDoc) (insertFails : Bool)
    (auth : Option String) (form : Form) (now : Nat) (ts : String) :
    PredictResponse × List HistoryDoc :=
  match predictBody env hist insertFails auth form now ts with
  | .ok r => r
  | .error (.keyError f) => (.missingField f, hist)
  | .error .valueError => (.invalidValue, hist)
  | .error .otherError => (.unexpectedError, hist)

/-! ### Fixed sample artifacts used in concrete witnesses.
The vocabularies are the sorted class lists of the pickled label encoders;
the identity scaler and a constant-probability classifier stand in for the
pickled scaler and the Keras model, which the general theorems quantify
over. -/

/-- A concrete environment: identity scaler, stub classifier returning
probability 0.72. -/
def sampleEnv : Env :=
  ⟨["Female", "Male", "Other"],
   ["No Info", "current", "ever", "former", "never", "not current"],
   fun v => v, fun _ => 72 / 100⟩

/-- A complete form submission with all eight fields bound. -/
def mkForm (g a hy hd sm bm hb gl : String) : Form :=
  [("gender", g), ("age", a), ("hypertension", hy),
   ("heart_disease", hd), ("smoking_history", sm), ("bmi", bm),
   ("HbA1c_level", hb), ("blood_glucose_level", gl)]

/-- The spec's example form input. -/
def sampleForm : Form :=
  mkForm "Female" "45" "0" "0" "never" "27.3" "6.1" "140"

/-! ### Rounding lemmas -/

theorem roundHalfEven_intCast (n : ℤ) : roundHalfEven (n : ℚ) = n := by
  simp [roundHalfEven, Int.fract_intCast, Int.floor_intCast]

theorem round1_eq_of_mul_ten (x : ℚ) (n : ℤ) (h : x * 10 = (n : ℚ)) :
    round1 x = (n : ℚ) / 10 := by
  simp [round1, h, roundHalfEven_intCast]

theorem roundHalfEven_nonneg (x : ℚ) (hx : 0 ≤ x) : 0 ≤ roundHalfEven x := by
  have h0 : (0 : ℤ) ≤ Int.floor x := Int.floor_nonneg.mpr hx
  unfold roundHalfEven
  split
  · exact h0
  · split
    · omega
    · split <;> omega

theorem roundHalfEven_le (x : ℚ) (n : ℤ) (hx : x ≤ (n : ℚ)) :
    roundHalfEven x ≤ n := by
  have hfl : Int.floor x ≤ n := by
    have h := Int.floor_mono hx
    simpa using h
  unfold roundHalfEven
  split
  · exact hfl
  · have hfr : (0 : ℚ) < Int.fract x := by
      rename_i hlt
      push_neg at hlt
      linarith
    have hne : Int.floor x < n := by
      rcases lt_or_eq_of_le hfl with h | h
      · exact h
      · exfalso
        have : x = (n : ℚ) := le_antisymm hx (by
          have := Int.floor_le x
          rw [h] at this
          exact this)
        rw [this] at hfr
        simp [Int.fract_intCast] at hfr
    split
    · omega
    · split <;> omega

theorem round1_nonneg (x : ℚ) (hx : 0 ≤ x) : 0 ≤ round1 x := by
  have := roundHalfEven_nonneg (x * 10) (by positivity)
  unfold round1
  positivity

theorem round1_le_100 (x : ℚ) (hx : x ≤ 100) : round1 x ≤ 100 := by
  have h : roundHalfEven (x * 10) ≤ (1000 : ℤ) := by
    apply roundHalfEven_le
    push_cast
    linarith
  unfold round1
  have : ((roundHalfEven (x * 10) : ℚ)) ≤ 1000 := by exact_mod_cast h
  linarith

/-! ### Characterization of the predict route -/

/-- The feature row assembled on lines 183–184, in source order. -/
def featureRow (p : Parsed) (gi si : Nat) : List ℚ :=
  [(gi : ℚ), p.age, (p.hypertension : ℚ), (p.heart_disease : ℚ), (si : ℚ),
   p.bmi, p.hba1c, p.glucose]

/-- The displayed probability (line 187): classifier output on the scaled
row, times 100, rounded to one decimal place. -/
def probOf (env : Env) (p : Parsed) (gi si : Nat) : ℚ :=
  round1 (env.model (env.scaler (featureRow p gi si)) * 100)

/-- `result_type` (line 189). -/
def resultTypeOf (prob : ℚ) : String :=
  if prob ≥ 50 then "diabetic" else "not_diabetic"

/-- `result` (lines 190–191). -/
def resultOf (prob : ℚ) : String :=
  if prob ≥ 50 then "⚠️ High Diabetes Risk Detected" else "✅ Low Diabetes Risk"

/-- The mapping from raised exception to rendered error response. -/
def errorResponse : PyErr → PredictResponse
  | .keyError f => .missingField f
  | .valueError => .invalidValue
  | .otherError => .unexpectedError

theorem predict_char_unauth (env : Env) (hist : List HistoryDoc)
    (insertFails : Bool) (form : Form) (now : Nat) (ts : String)
    (p : Parsed) (gi si : Nat)
    (hp : readForm form = .ok p)
    (hgi : leTransform env.genderClasses p.gender = .ok gi)
    (hsi : leTransform env.smokingClasses p.smoking_history = .ok si) :
    predict env hist insertFails none form now ts =
      (PredictResponse.ok (resultOf (probOf env p gi si))
        (resultTypeOf (probOf env p gi si)) (probOf env p gi si), hist) := by
  simp [predict, predictBody, hp, hgi, hsi, bind, Except.bind, pure, Except.pure,
        probOf, resultOf, resultTypeOf, featureRow]

theorem predict_char_auth (env : Env) (hist : List HistoryDoc)
    (u : String) (form : Form) (now : Nat) (ts : String)
    (p : Parsed) (gi si : Nat)
    (hp : readForm form = .ok p)
    (hgi : leTransform env.genderClasses p.gender = .ok gi)
    (hsi : leTransform env.smokingClasses p.smoking_history = .ok si) :
    predict env hist false (some u) form now ts =
      (PredictResponse.ok (resultOf (probOf env p gi si))
        (resultTypeOf (probOf env p gi si)) (probOf env p gi si),
       add_to_history hist u ts (inputsDict p) (resultOf (probOf env p gi si))
         (resultTypeOf (probOf env p gi si)) (probOf env p gi si) now) := by
  simp [predict, predictBody, hp, hgi, hsi, bind, Except.bind, pure, Except.pure,
        probOf, resultOf, resultTypeOf, featureRow]

theorem predict_char_auth_storeFail (env : Env) (hist : List HistoryDoc)
    (u : String) (form : Form) (now : Nat) (ts : String)
    (p : Parsed) (gi si : Nat)
    (hp : readForm form = .ok p)
    (hgi : leTransform env.genderClasses p.gender = .ok gi)
    (hsi : leTransform env.smokingClasses p.smoking_history = .ok si) :
    predict env hist true (some u) form now ts =
      (PredictResponse.unexpectedError, hist) := by
  simp [predict, predictBody, hp, hgi, hsi, bind, Except.bind, pure, Except.pure]

theorem predict_readForm_error (env : Env) (hist : List HistoryDoc)
    (insertFails : Bool) (auth : Option String) (form : Form) (now : Nat)
    (ts : String) (e : PyErr) (h : readForm form = .error e) :
    predict env hist insertFails auth form now ts = (errorResponse e, hist) := by
  cases e <;> simp [predict, predictBody, h, bind, Except.bind, pure, Except.pure, errorResponse]

theorem predict_encode_error (env : Env) (hist : List HistoryDoc)
    (insertFails : Bool) (auth : Option String) (form : Form) (now : Nat)
    (ts : String) (p : Parsed)
    (hp : readForm form = .ok p)
    (henc : leTransform env.genderClasses p.gender = .error .valueError ∨
            (∃ gi, leTransform env.genderClasses p.gender = .ok gi ∧
              leTransform env.smokingClasses p.smoking_history = .error .valueError)) :
    predict env hist insertFails auth form now ts =
      (PredictResponse.invalidValue, hist) := by
  rcases henc with hg | ⟨gi, hg, hs⟩
  · simp [predict, predictBody, hp, hg, bind, Except.bind, pure, Except.pure]
  · simp [predict, predictBody, hp, hg, hs, bind, Except.bind, pure, Except.pure]

/-- `leTransform` fails exactly on labels outside the fitted vocabulary. -/
theorem leTransform_error_iff (classes : List String) (v : String) :
    leTransform classes v = .error .valueError ↔ v ∉ classes := by
  unfold leTransform
  constructor
  · intro h
    cases hidx : classes.indexOf? v with
    | none =>
        intro hmem
        rw [List.indexOf?_eq_none_iff] at hidx
        exact hidx v hmem (by simp)
    | some i => rw [hidx] at h; simp at h
  · intro hmem
    cases hidx : classes.indexOf? v with
    | none => simp
    | some i =>
        exfalso
        apply hmem
        have : classes.indexOf? v ≠ none := by simp [hidx]
        rcases Option.ne_none_iff_exists.mp this with ⟨j, hj⟩
        by_contra hnm
        rw [List.indexOf?_eq_none_iff.mpr (fun x hx => ?_)] at hidx
        · simp at hidx
        · intro hbeq
          exact hnm (by rw [← show x = v from by simpa using hbeq] ; exact hx)

/-- `leTransform` can only raise `ValueError`. -/
theorem leTransform_error_shape (classes : List String) (v : String)
    (e : PyErr) (h : leTransform classes v = .error e) : e = .valueError := by
  unfold leTransform at h
  cases hidx : classes.indexOf? v <;> rw [hidx] at h <;> simp_all

/-- Inversion: a rendered success determines the whole pipeline — the form
parsed, both categories encoded, and the payload is the labelled, rounded
classifier output. -/
theorem predict_ok_inv (env : Env) (hist : List HistoryDoc) (insertFails : Bool)
    (auth : Option String) (form : Form) (now : Nat) (ts : String)
    (r rt : String) (pr : ℚ) (hist' : List HistoryDoc)
    (h : predict env hist insertFails auth form now ts = (.ok r rt pr, hist')) :
    ∃ p gi si, readForm form = .ok p ∧
      leTransform env.genderClasses p.gender = .ok gi ∧
      leTransform env.smokingClasses p.smoking_history = .ok si ∧
      pr = probOf env p gi si ∧ r = resultOf pr ∧ rt = resultTypeOf pr := by
  cases hp : readForm form with
  | error e =>
      rw [predict_readForm_error env hist insertFails auth form now ts e hp] at h
      cases e <;> simp [errorResponse] at h
  | ok p =>
      cases hg : leTransform env.genderClasses p.gender with
      | error e =>
          rw [leTransform_error_shape _ _ _ hg] at hg
          rw [predict_encode_error env hist insertFails auth form now ts p hp
                (Or.inl hg)] at h
          simp at h
      | ok gi =>
          cases hs : leTransform env.smokingClasses p.smoking_history with
          | error e =>
              rw [leTransform_error_shape _ _ _ hs] at hs
              rw [predict_encode_error env hist insertFails auth form now ts p hp
                    (Or.inr ⟨gi, hg, hs⟩)] at h
              simp at h
          | ok si =>
              refine ⟨p, gi, si, rfl, hg, hs, ?_⟩
              cases auth with
              | none =>
                  rw [predict_char_unauth env hist insertFails form now ts p gi si
                        hp hg hs] at h
                  obtain ⟨h1, -⟩ := Prod.mk.injEq .. ▸ h
                  obtain ⟨hr, hrt, hpr⟩ := PredictResponse.ok.injEq .. ▸ h1
                  exact ⟨hpr.symm, by rw [← hr, hpr], by rw [← hrt, hpr]⟩
              | some u =>
                  cases insertFails with
                  | true =>
                      rw [predict_char_auth_storeFail env hist u form now ts p gi si
                            hp hg hs] at h
                      simp at h
                  | false =>
                      rw [predict_char_auth env hist u form now ts p gi si
                            hp hg hs] at h
                      obtain ⟨h1, -⟩ := Prod.mk.injEq .. ▸ h
                      obtain ⟨hr, hrt, hpr⟩ := PredictResponse.ok.injEq .. ▸ h1
                      exact ⟨hpr.symm, by rw [← hr, hpr], by rw [← hrt, hpr]⟩

/-! ### Field getter lemmas -/

theorem getStr_eq (form : Form) (k v : String) (h : formGet form k = some v) :
    getStr form k = .ok v := by
  simp [getStr, h]

theorem getStr_none (form : Form) (k : String) (h : formGet form k = none) :
    getStr form k = .error (.keyError k) := by
  simp [getStr, h]

theorem getFloat_eq (form : Form) (k v : String) (q : ℚ)
    (h : formGet form k = some v) (hq : parseRat? v = some q) :
    getFloat form k = .ok q := by
  simp [getFloat, getStr, h, hq, bind, Except.bind, pure, Except.pure]

theorem getFloat_badParse (form : Form) (k v : String)
    (h : formGet form k = some v) (hq : parseRat? v = none) :
    getFloat form k = .error .valueError := by
  simp [getFloat, getStr, h, hq, bind, Except.bind]

theorem getFloat_none (form : Form) (k : String) (h : formGet form k = none) :
    getFloat form k = .error (.keyError k) := by
  simp [getFloat, getStr, h, bind, Except.bind]

theorem getInt_eq (form : Form) (k v : String) (n : ℤ)
    (h : formGet form k = some v) (hn : parseInt? v = some n) :
    getInt form k = .ok n := by
  simp [getInt, getStr, h, hn, bind, Except.bind, pure, Except.pure]

theorem getInt_badParse (form : Form) (k v : String)
    (h : formGet form k = some v) (hn : parseInt? v = none) :
    getInt form k = .error .valueError := by
  simp [getInt, getStr, h, hn, bind, Except.bind]

theorem getInt_none (form : Form) (k : String) (h : formGet form k = none) :
    getInt form k = .error (.keyError k) := by
  simp [getInt, getStr, h, bind, Except.bind]

theorem getStr_ok_inv (form : Form) (k v : String) (h : getStr form k = .ok v) :
    formGet form k = some v := by
  unfold getStr at h
  cases hx : formGet form k <;> rw [hx] at h <;> simp_all

theorem getFloat_ok_inv (form : Form) (k : String) (q : ℚ)
    (h : getFloat form k = .ok q) :
    ∃ s, formGet form k = some s ∧ parseRat? s = some q := by
  unfold getFloat getStr at h
  cases hx : formGet form k <;> rw [hx] at h
  · simp [bind, Except.bind] at h
  · rename_i v
    refine ⟨v, rfl, ?_⟩
    simp only [bind, Except.bind] at h
    cases hq : parseRat? v <;> rw [hq] at h <;> simp_all [pure, Except.pure]

theorem getInt_ok_inv (form : Form) (k : String) (n : ℤ)
    (h : getInt form k = .ok n) :
    ∃ s, formGet form k = some s ∧ parseInt? s = some n := by
  unfold getInt getStr at h
  cases hx : formGet form k <;> rw [hx] at h
  · simp [bind, Except.bind] at h
  · rename_i v
    refine ⟨v, rfl, ?_⟩
    simp only [bind, Except.bind] at h
    cases hq : parseInt? v <;> rw [hq] at h <;> simp_all [pure, Except.pure]

/-- Inversion of the eight field reads: a successful parse pins each
component of the `Parsed` record to the looked-up, parsed form value. -/
theorem readForm_ok_fields (form : Form) (p : Parsed)
    (h : readForm form = .ok p) :
    formGet form "gender" = some p.gender ∧
    (∃ s, formGet form "age" = some s ∧ parseRat? s = some p.age) ∧
    (∃ s, formGet form "hypertension" = some s ∧ parseInt? s = some p.hypertension) ∧
    (∃ s, formGet form "heart_disease" = some s ∧ parseInt? s = some p.heart_disease) ∧
    formGet form "smoking_history" = some p.smoking_history ∧
    (∃ s, formGet form "bmi" = some s ∧ parseRat? s = some p.bmi) ∧
    (∃ s, formGet form "HbA1c_level" = some s ∧ parseRat? s = some p.hba1c) ∧
    (∃ s, formGet form "blood_glucose_level" = some s ∧ parseRat? s = some p.glucose) := by
  simp only [readForm, bind, Except.bind] at h
  cases h1 : getStr form "gender" <;> rw [h1] at h <;> try simp_all
  cases h2 : getFloat form "age" <;> rw [h2] at h <;> try simp_all
  cases h3 : getInt form "hypertension" <;> rw [h3] at h <;> try simp_all
  cases h4 : getInt form "heart_disease" <;> rw [h4] at h <;> try simp_all
  cases h5 : getStr form "smoking_history" <;> rw [h5] at h <;> try simp_all
  cases h6 : getFloat form "bmi" <;> rw [h6] at h <;> try simp_all
  cases h7 : getFloat form "HbA1c_level" <;> rw [h7] at h <;> try simp_all
  cases h8 : getFloat form "blood_glucose_level" <;> rw [h8] at h <;> try simp_all
  obtain ⟨hg, ha, hh, hd, hs, hb, hc, hl⟩ : p.gender = _ ∧ p.age = _ ∧
      p.hypertension = _ ∧ p.heart_disease = _ ∧ p.smoking_history = _ ∧
      p.bmi = _ ∧ p.hba1c = _ ∧ p.glucose = _ := by
    simp [pure, Except.pure] at h
    cases p
    simp_all
    rcases h with ⟨hg, ha, hh, hd, hs, hb, hc, hl⟩
    exact ⟨hg.symm, ha.symm, hh.symm, hd.symm, hs.symm, hb.symm, hc.symm, hl.symm⟩
  refine ⟨?_, ?_, ?_, ?_, ?_, ?_, ?_, ?_⟩
  · rw [hg]; exact getStr_ok_inv _ _ _ h1
  · rw [ha]; exact getFloat_ok_inv _ _ _ h2
  · rw [hh]; exact getInt_ok_inv _ _ _ h3
  · rw [hd]; exact getInt_ok_inv _ _ _ h4
  · rw [hs]; exact getStr_ok_inv _ _ _ h5
  · rw [hb]; exact getFloat_ok_inv _ _ _ h6
  · rw [hc]; exact getFloat_ok_inv _ _ _ h7
  · rw [hl]; exact getFloat_ok_inv _ _ _ h8

/-! ### The canonical field check order (lines 171–178, top to bottom) -/

/-- The i-th required field name in the order the route reads them. -/
def nameAt : Nat → String
  | 0 => "gender"
  | 1 => "age"
  | 2 => "hypertension"
  | 3 => "heart_disease"
  | 4 => "smoking_history"
  | 5 => "bmi"
  | 6 => "HbA1c_level"
  | _ => "blood_glucose_level"

/-- Whether a raw value parses for the i-th field's expected type (string
fields always do; `float()` fields need `parseRat?`, `int()` fields need
`parseInt?`). -/
def parseOkAt : Nat → String → Bool
  | 1, v => (parseRat? v).isSome
  | 5, v => (parseRat? v).isSome
  | 6, v => (parseRat? v).isSome
  | 7, v => (parseRat? v).isSome
  | 2, v => (parseInt? v).isSome
  | 3, v => (parseInt? v).isSome
  | _, _ => true

/-- The i-th field is present and parses. -/
def fieldOkAt (form : Form) (i : Nat) : Bool :=
  match formGet form (nameAt i) with
  | none => false
  | some v => parseOkAt i v

theorem fieldOk_gender (form : Form) (h : fieldOkAt form 0 = true) :
    ∃ v, getStr form "gender" = .ok v := by
  unfold fieldOkAt nameAt at h
  cases hx : formGet form "gender" <;> rw [hx] at h <;> simp_all
  exact ⟨_, getStr_eq _ _ _ hx⟩

theorem fieldOk_smoking (form : Form) (h : fieldOkAt form 4 = true) :
    ∃ v, getStr form "smoking_history" = .ok v := by
  unfold fieldOkAt nameAt at h
  cases hx : formGet form "smoking_history" <;> rw [hx] at h <;> simp_all
  exact ⟨_, getStr_eq _ _ _ hx⟩

theorem fieldOk_float (form : Form) (i : Nat) (k : String)
    (hik : nameAt i = k)
    (hpo : ∀ v, parseOkAt i v = (parseRat? v).isSome)
    (h : fieldOkAt form i = true) :
    ∃ q, getFloat form k = .ok q := by
  unfold fieldOkAt at h
  rw [hik] at h
  cases hx : formGet form k <;> rw [hx] at h
  · simp at h
  · simp only [] at h
    rw [hpo] at h
    rcases Option.isSome_iff_exists.mp h with ⟨q, hq⟩
    exact ⟨q, getFloat_eq _ _ _ _ hx hq⟩

theorem fieldOk_int (form : Form) (i : Nat) (k : String)
    (hik : nameAt i = k)
    (hpo : ∀ v, parseOkAt i v = (parseInt? v).isSome)
    (h : fieldOkAt form i = true) :
    ∃ n, getInt form k = .ok n := by
  unfold fieldOkAt at h
  rw [hik] at h
  cases hx : formGet form k <;> rw [hx] at h
  · simp at h
  · simp only [] at h
    rw [hpo] at h
    rcases Option.isSome_iff_exists.mp h with ⟨n, hn⟩
    exact ⟨n, getInt_eq _ _ _ _ hx hn⟩

/-- Fail-fast on a missing field. -/
theorem readForm_missingAt (form : Form) (i : Nat) (hi : i < 8)
    (hpre : ∀ j, j < i → fieldOkAt form j = true)
    (hmiss : formGet form (nameAt i) = none) :
    readForm form = .error (.keyError (nameAt i)) := by
  interval_cases i
  · simp only [nameAt] at hmiss ⊢
    simp [readForm, getStr_none form "gender" hmiss, bind, Except.bind]
  · obtain ⟨v0, e0⟩ := fieldOk_gender form (hpre 0 (by norm_num))
    simp only [nameAt] at hmiss ⊢
    simp [readForm, e0, getFloat_none form "age" hmiss, bind, Except.bind]
  · obtain ⟨v0, e0⟩ := fieldOk_gender form (hpre 0 (by norm_num))
    obtain ⟨q1, e1⟩ := fieldOk_float form 1 "age" rfl (fun v => rfl) (hpre 1 (by norm_num))
    simp only [nameAt] at hmiss ⊢
    simp [readForm, e0, e1, getInt_none form "hypertension" hmiss, bind, Except.bind]
  · obtain ⟨v0, e0⟩ := fieldOk_gender form (hpre 0 (by norm_num))
    obtain ⟨q1, e1⟩ := fieldOk_float form 1 "age" rfl (fun v => rfl) (hpre 1 (by norm_num))
    obtain ⟨n2, e2⟩ := fieldOk_int form 2 "hypertension" rfl (fun v => rfl) (hpre 2 (by norm_num))
    simp only [nameAt] at hmiss ⊢
    simp [readForm, e0, e1, e2, getInt_none form "heart_disease" hmiss, bind, Except.bind]
  · obtain ⟨v0, e0⟩ := fieldOk_gender form (hpre 0 (by norm_num))
    obtain ⟨q1, e1⟩ := fieldOk_float form 1 "age" rfl (fun v => rfl) (hpre 1 (by norm_num))
    obtain ⟨n2, e2⟩ := fieldOk_int form 2 "hypertension" rfl (fun v => rfl) (hpre 2 (by norm_num))
    obtain ⟨n3, e3⟩ := fieldOk_int form 3 "heart_disease" rfl (fun v => rfl) (hpre 3 (by norm_num))
    simp only [nameAt] at hmiss ⊢
    simp [readForm, e0, e1, e2, e3, getStr_none form "smoking_history" hmiss, bind, Except.bind]
  · obtain ⟨v0, e0⟩ := fieldOk_gender form (hpre 0 (by norm_num))
    obtain ⟨q1, e1⟩ := fieldOk_float form 1 "age" rfl (fun v => rfl) (hpre 1 (by norm_num))
    obtain ⟨n2, e2⟩ := fieldOk_int form 2 "hypertension" rfl (fun v => rfl) (hpre 2 (by norm_num))
    obtain ⟨n3, e3⟩ := fieldOk_int form 3 "heart_disease" rfl (fun v => rfl) (hpre 3 (by norm_num))
    obtain ⟨v4, e4⟩ := fieldOk_smoking form (hpre 4 (by norm_num))
    simp only [nameAt] at hmiss ⊢
    simp [readForm, e0, e1, e2, e3, e4, getFloat_none form "bmi" hmiss, bind, Except.bind]
  · obtain ⟨v0, e0⟩ := fieldOk_gender form (hpre 0 (by norm_num))
    obtain ⟨q1, e1⟩ := fieldOk_float form 1 "age" rfl (fun v => rfl) (hpre 1 (by norm_num))
    obtain ⟨n2, e2⟩ := fieldOk_int form 2 "hypertension" rfl (fun v => rfl) (hpre 2 (by norm_num))
    obtain ⟨n3, e3⟩ := fieldOk_int form 3 "heart_disease" rfl (fun v => rfl) (hpre 3 (by norm_num))
    obtain ⟨v4, e4⟩ := fieldOk_smoking form (hpre 4 (by norm_num))
    obtain ⟨q5, e5⟩ := fieldOk_float form 5 "bmi" rfl (fun v => rfl) (hpre 5 (by norm_num))
    simp only [nameAt] at hmiss ⊢
    simp [readForm, e0, e1, e2, e3, e4, e5, getFloat_none form "HbA1c_level" hmiss, bind, Except.bind]
  · obtain ⟨v0, e0⟩ := fieldOk_gender form (hpre 0 (by norm_num))
    obtain ⟨q1, e1⟩ := fieldOk_float form 1 "age" rfl (fun v => rfl) (hpre 1 (by norm_num))
    obtain ⟨n2, e2⟩ := fieldOk_int form 2 "hypertension" rfl (fun v => rfl) (hpre 2 (by norm_num))
    obtain ⟨n3, e3⟩ := fieldOk_int form 3 "heart_disease" rfl (fun v => rfl) (hpre 3 (by norm_num))
    obtain ⟨v4, e4⟩ := fieldOk_smoking form (hpre 4 (by norm_num))
    obtain ⟨q5, e5⟩ := fieldOk_float form 5 "bmi" rfl (fun v => rfl) (hpre 5 (by norm_num))
    obtain ⟨q6, e6⟩ := fieldOk_float form 6 "HbA1c_level" rfl (fun v => rfl) (hpre 6 (by norm_num))
    simp only [nameAt] at hmiss ⊢
    simp [readForm, e0, e1, e2, e3, e4, e5, e6, getFloat_none form "blood_glucose_level" hmiss, bind, Except.bind]

/-- Fail-fast on a present-but-unparseable field. -/
theorem readForm_invalidAt (form : Form) (i : Nat) (hi : i < 8)
    (hpre : ∀ j, j < i → fieldOkAt form j = true)
    (v : String) (hv : formGet form (nameAt i) = some v)
    (hbad : parseOkAt i v = false) :
    readForm form = .error .valueError := by
  interval_cases i
  · simp [parseOkAt] at hbad
  · have hq : parseRat? v = none := by
      cases hq0 : parseRat? v
      · rfl
      · rw [show parseOkAt 1 v = (parseRat? v).isSome from rfl, hq0] at hbad
        simp at hbad
    obtain ⟨v0, e0⟩ := fieldOk_gender form (hpre 0 (by norm_num))
    simp only [nameAt] at hv
    simp [readForm, e0, getFloat_badParse form "age" v hv hq, bind, Except.bind]
  · have hq : parseInt? v = none := by
      cases hq0 : parseInt? v
      · rfl
      · rw [show parseOkAt 2 v = (parseInt? v).isSome from rfl, hq0] at hbad
        simp at hbad
    obtain ⟨v0, e0⟩ := fieldOk_gender form (hpre 0 (by norm_num))
    obtain ⟨q1, e1⟩ := fieldOk_float form 1 "age" rfl (fun v => rfl) (hpre 1 (by norm_num))
    simp only [nameAt] at hv
    simp [readForm, e0, e1, getInt_badParse form "hypertension" v hv hq, bind, Except.bind]
  · have hq : parseInt? v = none := by
      cases hq0 : parseInt? v
      · rfl
      · rw [show parseOkAt 3 v = (parseInt? v).isSome from rfl, hq0] at hbad
        simp at hbad
    obtain ⟨v0, e0⟩ := fieldOk_gender form (hpre 0 (by norm_num))
    obtain ⟨q1, e1⟩ := fieldOk_float form 1 "age" rfl (fun v => rfl) (hpre 1 (by norm_num))
    obtain ⟨n2, e2⟩ := fieldOk_int form 2 "hypertension" rfl (fun v => rfl) (hpre 2 (by norm_num))
    simp only [nameAt] at hv
    simp [readForm, e0, e1, e2, getInt_badParse form "heart_disease" v hv hq, bind, Except.bind]
  · simp [parseOkAt] at hbad
  · have hq : parseRat? v = none := by
      cases hq0 : parseRat? v
      · rfl
      · rw [show parseOkAt 5 v = (parseRat? v).isSome from rfl, hq0] at hbad
        simp at hbad
    obtain ⟨v0, e0⟩ := fieldOk_gender form (hpre 0 (by norm_num))
    obtain ⟨q1, e1⟩ := fieldOk_float form 1 "age" rfl (fun v => rfl) (hpre 1 (by norm_num))
    obtain ⟨n2, e2⟩ := fieldOk_int form 2 "hypertension" rfl (fun v => rfl) (hpre 2 (by norm_num))
    obtain ⟨n3, e3⟩ := fieldOk_int form 3 "heart_disease" rfl (fun v => rfl) (hpre 3 (by norm_num))
    obtain ⟨v4, e4⟩ := fieldOk_smoking form (hpre 4 (by norm_num))
    simp only [nameAt] at hv
    simp [readForm, e0, e1, e2, e3, e4, getFloat_badParse form "bmi" v hv hq, bind, Except.bind]
  · have hq : parseRat? v = none := by
      cases hq0 : parseRat? v
      · rfl
      · rw [show parseOkAt 6 v = (parseRat? v).isSome from rfl, hq0] at hbad
        simp at hbad
    obtain ⟨v0, e0⟩ := fieldOk_gender form (hpre 0 (by norm_num))
    obtain ⟨q1, e1⟩ := fieldOk_float form 1 "age" rfl (fun v => rfl) (hpre 1 (by norm_num))
    obtain ⟨n2, e2⟩ := fieldOk_int form 2 "hypertension" rfl (fun v => rfl) (hpre 2 (by norm_num))
    obtain ⟨n3, e3⟩ := fieldOk_int form 3 "heart_disease" rfl (fun v => rfl) (hpre 3 (by norm_num))
    obtain ⟨v4, e4⟩ := fieldOk_smoking form (hpre 4 (by norm_num))
    obtain ⟨q5, e5⟩ := fieldOk_float form 5 "bmi" rfl (fun v => rfl) (hpre 5 (by norm_num))
    simp only [nameAt] at hv
    simp [readForm, e0, e1, e2, e3, e4, e5, getFloat_badParse form "HbA1c_level" v hv hq, bind, Except.bind]
  · have hq : parseRat? v = none := by
      cases hq0 : parseRat? v
      · rfl
      · rw [show parseOkAt 7 v = (parseRat? v).isSome from rfl, hq0] at hbad
        simp at hbad
    obtain ⟨v0, e0⟩ := fieldOk_gender form (hpre 0 (by norm_num))
    obtain ⟨q1, e1⟩ := fieldOk_float form 1 "age" rfl (fun v => rfl) (hpre 1 (by norm_num))
    obtain ⟨n2, e2⟩ := fieldOk_int form 2 "hypertension" rfl (fun v => rfl) (hpre 2 (by norm_num))
    obtain ⟨n3, e3⟩ := fieldOk_int form 3 "heart_disease" rfl (fun v => rfl) (hpre 3 (by norm_num))
    obtain ⟨v4, e4⟩ := fieldOk_smoking form (hpre 4 (by norm_num))
    obtain ⟨q5, e5⟩ := fieldOk_float form 5 "bmi" rfl (fun v => rfl) (hpre 5 (by norm_num))
    obtain ⟨q6, e6⟩ := fieldOk_float form 6 "HbA1c_level" rfl (fun v => rfl) (hpre 6 (by norm_num))
    simp only [nameAt] at hv
    simp [readForm, e0, e1, e2, e3, e4, e5, e6, getFloat_badParse form "blood_glucose_level" v hv hq, bind, Except.bind]

/-! ### Concrete evaluation of complete form submissions -/

theorem parseRat_45 : parseRat? "45" = some 45 := by
  have h : parseUDec? "45".data = some ⟨45, 0, 0⟩ := by decide
  simp [parseRat?, h, DecParts.val]

theorem parseRat_27_3 : parseRat? "27.3" = some (273/10) := by
  have h : parseUDec? "27.3".data = some ⟨27, 3, 1⟩ := by decide
  simp [parseRat?, h, DecParts.val]
  norm_num

theorem parseRat_6_1 : parseRat? "6.1" = some (61/10) := by
  have h : parseUDec? "6.1".data = some ⟨6, 1, 1⟩ := by decide
  simp [parseRat?, h, DecParts.val]
  norm_num

theorem parseRat_140 : parseRat? "140" = some 140 := by
  have h : parseUDec? "140".data = some ⟨140, 0, 0⟩ := by decide
  simp [parseRat?, h, DecParts.val]

theorem parseRat_neg5 : parseRat? "-5" = some (-5) := by
  have h : parseUDec? "5".data = some ⟨5, 0, 0⟩ := by decide
  simp [parseRat?, h, DecParts.val]

theorem parseInt_0 : parseInt? "0" = some 0 := by decide

theorem parseInt_2 : parseInt? "2" = some 2 := by decide

/-- A complete submission parses to exactly its parsed field values. -/
theorem readForm_mkForm (g a hy hd sm bm hb gl : String)
    (qa qb qc ql : ℚ) (nh nd : ℤ)
    (ha : parseRat? a = some qa) (hh : parseInt? hy = some nh)
    (hd2 : parseInt? hd = some nd) (hb2 : parseRat? bm = some qb)
    (hc2 : parseRat? hb = some qc) (hl2 : parseRat? gl = some ql) :
    readForm (mkForm g a hy hd sm bm hb gl) =
      .ok ⟨g, qa, nh, nd, sm, qb, qc, ql⟩ := by
  have e1 : formGet (mkForm g a hy hd sm bm hb gl) "gender" = some g := rfl
  have e2 : formGet (mkForm g a hy hd sm bm hb gl) "age" = some a := rfl
  have e3 : formGet (mkForm g a hy hd sm bm hb gl) "hypertension" = some hy := rfl
  have e4 : formGet (mkForm g a hy hd sm bm hb gl) "heart_disease" = some hd := rfl
  have e5 : formGet (mkForm g a hy hd sm bm hb gl) "smoking_history" = some sm := rfl
  have e6 : formGet (mkForm g a hy hd sm bm hb gl) "bmi" = some bm := rfl
  have e7 : formGet (mkForm g a hy hd sm bm hb gl) "HbA1c_level" = some hb := rfl
  have e8 : formGet (mkForm g a hy hd sm bm hb gl) "blood_glucose_level" = some gl := rfl
  simp [readForm, getStr_eq _ _ _ e1, getFloat_eq _ _ _ _ e2 ha,
        getInt_eq _ _ _ _ e3 hh, getInt_eq _ _ _ _ e4 hd2,
        getStr_eq _ _ _ e5, getFloat_eq _ _ _ _ e6 hb2,
        getFloat_eq _ _ _ _ e7 hc2, getFloat_eq _ _ _ _ e8 hl2,
        bind, Except.bind, pure, Except.pure]

/-- Parsed form of the sample input. -/
def sampleParsed : Parsed := ⟨"Female", 45, 0, 0, "never", 273/10, 61/10, 140⟩

theorem readForm_sample : readForm sampleForm = .ok sampleParsed :=
  readForm_mkForm "Female" "45" "0" "0" "never" "27.3" "6.1" "140"
    45 (273/10) (61/10) 140 0 0
    parseRat_45 parseInt_0 parseInt_0 parseRat_27_3 parseRat_6_1 parseRat_140

theorem leT_sample_gender :
    leTransform sampleEnv.genderClasses "Female" = .ok 0 := by
  simp [leTransform, sampleEnv, List.indexOf?]

theorem leT_sample_smoking :
    leTransform sampleEnv.smokingClasses "never" = .ok 4 := by
  simp [leTransform, sampleEnv, List.indexOf?]

/-- The stub classifier is constant, so every request scores 72.0. -/
theorem probOf_sampleEnv (p : Parsed) (gi si : Nat) :
    probOf sampleEnv p gi si = 72 := by
  have hr : round1 (72 : ℚ) = ((720 : ℚ)) / 10 :=
    round1_eq_of_mul_ten 72 720 (by norm_num)
  simp only [probOf, sampleEnv, featureRow]
  norm_num [hr]

theorem resultTypeOf_sample : resultTypeOf 72 = "diabetic" := by
  simp [resultTypeOf]
  norm_num

theorem resultOf_sample : resultOf 72 = "⚠️ High Diabetes Risk Detected" := by
  simp [resultOf]
  norm_num

theorem predict_sample_unauth :
    predict sampleEnv [] false none sampleForm 0 "ts" =
      (PredictResponse.ok "⚠️ High Diabetes Risk Detected" "diabetic" 72, []) := by
  rw [predict_char_unauth sampleEnv [] false sampleForm 0 "ts" sampleParsed 0 4
        readForm_sample leT_sample_gender leT_sample_smoking,
      probOf_sampleEnv, resultOf_sample, resultTypeOf_sample]

theorem predict_sample_auth :
    predict sampleEnv [] false (some "admin") sampleForm 7 "ts" =
      (PredictResponse.ok "⚠️ High Diabetes Risk Detected" "diabetic" 72,
       [⟨"admin", "ts", inputsDict sampleParsed,
         "⚠️ High Diabetes Risk Detected", "diabetic", 72, 7⟩]) := by
  rw [predict_char_auth sampleEnv [] "admin" sampleForm 7 "ts" sampleParsed 0 4
        readForm_sample leT_sample_gender leT_sample_smoking,
      probOf_sampleEnv, resultOf_sample, resultTypeOf_sample]
  rfl

theorem predict_sample_storeFail :
    predict sampleEnv [] true (some "admin") sampleForm 7 "ts" =
      (PredictResponse.unexpectedError, []) :=
  predict_char_auth_storeFail sampleEnv [] "admin" sampleForm 7 "ts"
    sampleParsed 0 4 readForm_sample leT_sample_gender leT_sample_smoking

/-! ### History store lemmas -/

theorem mem_insertDesc (r x : HistoryDoc) (l : List HistoryDoc) :
    x ∈ insertDesc r l ↔ x = r ∨ x ∈ l := by
  induction l with
  | nil => simp [insertDesc]
  | cons y ys ih =>
      unfold insertDesc
      split
      · simp [ih]
        tauto
      · simp

theorem length_insertDesc (r : HistoryDoc) (l : List HistoryDoc) :
    (insertDesc r l).length = l.length + 1 := by
  induction l with
  | nil => simp [insertDesc]
  | cons y ys ih =>
      unfold insertDesc
      split
      · simp [ih]
      · simp

/-- Descending order on creation instants. -/
def DescOrdered (l : List HistoryDoc) : Prop :=
  l.Pairwise (fun a b => b.created_at ≤ a.created_at)

theorem descOrdered_insertDesc (r : HistoryDoc) (l : List HistoryDoc)
    (h : DescOrdered l) : DescOrdered (insertDesc r l) := by
  induction l with
  | nil => simp [insertDesc, DescOrdered]
  | cons y ys ih =>
      unfold DescOrdered at h
      rw [List.pairwise_cons] at h
      obtain ⟨hy, hys⟩ := h
      unfold insertDesc
      split
      · rename_i hle
        unfold DescOrdered
        rw [List.pairwise_cons]
        constructor
        · intro a ha
          rcases (mem_insertDesc r a ys).mp ha with rfl | ha
          · exact hle
          · exact hy a ha
        · exact ih hys
      · rename_i hgt
        push_neg at hgt
        unfold DescOrdered
        rw [List.pairwise_cons]
        constructor
        · intro a ha
          rcases List.mem_cons.mp ha with rfl | ha
          · exact le_of_lt hgt
          · exact (hy a ha).trans (le_of_lt hgt)
        · rw [List.pairwise_cons]
          exact ⟨hy, hys⟩

theorem mem_sortDesc (x : HistoryDoc) (l : List HistoryDoc) :
    x ∈ sortDesc l ↔ x ∈ l := by
  induction l with
  | nil => simp [sortDesc]
  | cons y ys ih =>
      simp only [sortDesc, List.foldr_cons] at ih ⊢
      rw [mem_insertDesc]
      simp [ih]

theorem length_sortDesc (l : List HistoryDoc) :
    (sortDesc l).length = l.length := by
  induction l with
  | nil => simp [sortDesc]
  | cons y ys ih =>
      simp only [sortDesc, List.foldr_cons] at ih ⊢
      rw [length_insertDesc, ih]
      simp

theorem descOrdered_sortDesc (l : List HistoryDoc) : DescOrdered (sortDesc l) := by
  induction l with
  | nil => simp [sortDesc, DescOrdered]
  | cons y ys ih =>
      simp only [sortDesc, List.foldr_cons] at ih ⊢
      exact descOrdered_insertDesc y _ ih

theorem username_of_mem_get_history (hist : List HistoryDoc) (u : String)
    (limit : Nat) (x : HistoryDoc) (hx : x ∈ get_history hist u limit) :
    x.username = u := by
  unfold get_history at hx
  have h1 : x ∈ sortDesc (hist.filter (fun r => r.username == u)) :=
    List.take_subset _ _ hx
  have h2 := (mem_sortDesc _ _).mp h1
  have h3 := List.mem_filter.mp h2
  simpa using h3.2

theorem length_get_history (hist : List HistoryDoc) (u : String) (limit : Nat) :
    (get_history hist u limit).length ≤ limit := by
  unfold get_history
  simp [List.length_take]

theorem descOrdered_get_history (hist : List HistoryDoc) (u : String)
    (limit : Nat) : DescOrdered (get_history hist u limit) := by
  unfold get_history DescOrdered
  exact (descOrdered_sortDesc _).sublist (List.take_sublist _ _)

theorem get_history_three (r1 r2 r3 : HistoryDoc) (u : String)
    (h1 : r1.username = u) (h2 : r2.username = u) (h3 : r3.username = u)
    (t12 : r1.created_at < r2.created_at) (t23 : r2.created_at < r3.created_at) :
    get_history [r1, r2, r3] u 2 = [r3, r2] := by
  have h23 : r2.created_at ≤ r3.created_at := le_of_lt t23
  have h13 : r1.created_at ≤ r3.created_at := le_of_lt (t12.trans t23)
  have h12 : r1.created_at ≤ r2.created_at := le_of_lt t12
  unfold get_history
  have hf : [r1, r2, r3].filter (fun r => r.username == u) = [r1, r2, r3] := by
    simp [h1, h2, h3]
  rw [hf]
  unfold sortDesc
  simp only [List.foldr_cons, List.foldr_nil]
  simp [insertDesc, h23, h13, h12]

theorem get_history_no_records (hist : List HistoryDoc) (u : String)
    (limit : Nat) (h : ∀ r ∈ hist, r.username ≠ u) :
    get_history hist u limit = [] := by
  unfold get_history
  have hf : hist.filter (fun r => r.username == u) = [] := by
    rw [List.filter_eq_nil_iff]
    intro a ha
    simp [h a ha]
  rw [hf]
  simp [sortDesc]

theorem clear_then_list (hist : List HistoryDoc) (u : String) (limit : Nat) :
    get_history (clear_user_history hist u) u limit = [] := by
  apply get_history_no_records
  intro r hr
  have := List.mem_filter.mp hr
  simpa using this.2

theorem clear_idem (hist : List HistoryDoc) (u : String) :
    clear_user_history (clear_user_history hist u) u = clear_user_history hist u := by
  unfold clear_user_history
  rw [List.filter_filter]
  apply List.filter_congr
  intro a ha
  simp

theorem clear_noop (hist : List HistoryDoc) (u : String)
    (h : ∀ r ∈ hist, r.username ≠ u) :
    clear_user_history hist u = hist := by
  unfold clear_user_history
  apply List.filter_eq_self.mpr
  intro a ha
  simpa using h a ha

theorem clear_other_user (hist : List HistoryDoc) (u v : String) (hvu : v ≠ u)
    (limit : Nat) :
    get_history (clear_user_history hist u) v limit = get_history hist v limit := by
  unfold get_history clear_user_history
  rw [List.filter_filter]
  congr 1
  apply congrArg
  apply List.filter_congr
  intro a ha
  by_cases hv : a.username = v
  · simp [hv, hvu]
  · simp [hv]


theorem leTransform_ok_of_mem (classes : List String) (v : String)
    (h : v ∈ classes) : ∃ i, leTransform classes v = .ok i := by
  cases hidx : classes.indexOf? v with
  | some i => exact ⟨i, by simp [leTransform, hidx]⟩
  | none =>
      exfalso
      rw [List.indexOf?_eq_none_iff] at hidx
      exact hidx v h (by simp)

/-! ### Claims -/

/-- C1 (counterexample): for the very same authenticated request, the
route answers with the success payload when the history insert succeeds,
but with the 500 unexpected-error page — not the prediction — when the
insert raises: the store failure does turn an otherwise-successful
prediction into an error response. -/
theorem store_failure_masks_prediction_cex :
    predict sampleEnv [] false (some "admin") sampleForm 7 "ts" =
      (PredictResponse.ok "⚠️ High Diabetes Risk Detected" "diabetic" 72,
       [⟨"admin", "ts", inputsDict sampleParsed,
         "⚠️ High Diabetes Risk Detected", "diabetic", 72, 7⟩]) ∧
    predict sampleEnv [] true (some "admin") sampleForm 7 "ts" =
      (PredictResponse.unexpectedError, []) ∧
    (predict sampleEnv [] true (some "admin") sampleForm 7 "ts").1 ≠
      PredictResponse.ok "⚠️ High Diabetes Risk Detected" "diabetic" 72 := by
  refine ⟨predict_sample_auth, predict_sample_storeFail, ?_⟩
  rw [predict_sample_storeFail]
  simp

/-- C1 (amended): a history-store failure on append aborts the response:
whenever the same authenticated request would succeed with a working
store, the failing store makes the route return the unexpected-error
response and leave the history unchanged, instead of returning the
prediction result. -/
theorem store_failure_aborts_prediction (env : Env) (hist : List HistoryDoc)
    (u : String) (form : Form) (now : Nat) (ts : String)
    (r rt : String) (pr : ℚ) (hist' : List HistoryDoc)
    (h : predict env hist false (some u) form now ts = (.ok r rt pr, hist')) :
    predict env hist true (some u) form now ts =
      (PredictResponse.unexpectedError, hist) := by
  obtain ⟨p, gi, si, hp, hg, hs, -⟩ :=
    predict_ok_inv env hist false (some u) form now ts r rt pr hist' h
  exact predict_char_auth_storeFail env hist u form now ts p gi si hp hg hs

theorem store_failure_aborts_prediction_witness :
    predict sampleEnv [] true (some "admin") sampleForm 7 "ts" =
      (PredictResponse.unexpectedError, []) :=
  store_failure_aborts_prediction sampleEnv [] "admin" sampleForm 7 "ts"
    _ _ _ _ predict_sample_auth

/-- C2: every successful response labels `diabetic` exactly when the
rounded percentage is at least 50 (boundary inclusive), `not_diabetic`
exactly when it is below 50, and pairs each label with its fixed message
string. -/
theorem label_threshold_inclusive (env : Env) (hist : List HistoryDoc)
    (insertFails : Bool) (auth : Option String) (form : Form) (now : Nat)
    (ts : String) (r rt : String) (pr : ℚ) (hist' : List HistoryDoc)
    (h : predict env hist insertFails auth form now ts = (.ok r rt pr, hist')) :
    (rt = "diabetic" ↔ 50 ≤ pr) ∧
    (rt = "not_diabetic" ↔ pr < 50) ∧
    (50 ≤ pr → r = "⚠️ High Diabetes Risk Detected") ∧
    (pr < 50 → r = "✅ Low Diabetes Risk") ∧
    (pr = 50 → rt = "diabetic") := by
  obtain ⟨p, gi, si, -, -, -, -, hr, hrt⟩ :=
    predict_ok_inv env hist insertFails auth form now ts r rt pr hist' h
  subst hr hrt
  unfold resultOf resultTypeOf
  by_cases hc : pr ≥ 50
  · rw [if_pos hc, if_pos hc]
    exact ⟨⟨fun _ => hc, fun _ => rfl⟩,
           ⟨fun hh => absurd hh (by decide), fun hlt => absurd hc (not_le.mpr hlt)⟩,
           fun _ => rfl,
           fun hlt => absurd hc (not_le.mpr hlt),
           fun _ => rfl⟩
  · have hlt : pr < 50 := not_le.mp hc
    rw [if_neg hc, if_neg hc]
    exact ⟨⟨fun hh => absurd hh (by decide), fun hge => absurd hge hc⟩,
           ⟨fun _ => hlt, fun _ => rfl⟩,
           fun hge => absurd hge hc,
           fun _ => rfl,
           fun heq => absurd hlt (by rw [heq]; exact lt_irrefl 50)⟩

theorem label_threshold_inclusive_witness :
    (("diabetic" : String) = "diabetic" ↔ (50 : ℚ) ≤ 72) ∧
    (("diabetic" : String) = "not_diabetic" ↔ (72 : ℚ) < 50) ∧
    ((50 : ℚ) ≤ 72 →
      ("⚠️ High Diabetes Risk Detected" : String) = "⚠️ High Diabetes Risk Detected") ∧
    ((72 : ℚ) < 50 →
      ("⚠️ High Diabetes Risk Detected" : String) = "✅ Low Diabetes Risk") ∧
    ((72 : ℚ) = 50 → ("diabetic" : String) = "diabetic") :=
  label_threshold_inclusive sampleEnv [] false none sampleForm 0 "ts"
    _ _ _ _ predict_sample_unauth

/-- C3: validation is fail-fast in the canonical order gender, age,
hypertension, heart_disease, smoking_history, bmi, HbA1c_level,
blood_glucose_level: when every earlier field is present and parses, a
missing i-th field yields the missing-field error naming exactly that
field (so of several missing fields the earliest is reported), while an
i-th field that is present but unparseable yields the invalid-value error
instead; the history is untouched either way. -/
theorem validation_fail_fast (env : Env) (hist : List HistoryDoc)
    (insertFails : Bool) (auth : Option String) (form : Form) (now : Nat)
    (ts : String) (i : Nat) (hi : i < 8)
    (hpre : ∀ j, j < i → fieldOkAt form j = true) :
    (formGet form (nameAt i) = none →
       predict env hist insertFails auth form now ts =
         (PredictResponse.missingField (nameAt i), hist)) ∧
    (∀ v, formGet form (nameAt i) = some v → parseOkAt i v = false →
       predict env hist insertFails auth form now ts =
         (PredictResponse.invalidValue, hist)) := by
  constructor
  · intro hmiss
    have h := readForm_missingAt form i hi hpre hmiss
    have h2 := predict_readForm_error env hist insertFails auth form now ts _ h
    simpa [errorResponse] using h2
  · intro v hv hbad
    have h := readForm_invalidAt form i hi hpre v hv hbad
    have h2 := predict_readForm_error env hist insertFails auth form now ts _ h
    simpa [errorResponse] using h2

/-- A form carrying only gender and age. -/
def truncatedForm : Form := [("gender", "Female"), ("age", "45")]

theorem validation_fail_fast_witness :
    predict sampleEnv [] false none truncatedForm 0 "ts" =
      (PredictResponse.missingField "hypertension", []) :=
  (validation_fail_fast sampleEnv [] false none truncatedForm 0 "ts" 2
      (by norm_num) (by decide)).1 (by decide)

/-- C4: a gender or smoking-history value outside the fitted encoder
vocabulary makes the route answer invalid-value with the history collection
untouched (any authentication state, store failing or not), and the
response is independent of the scaler and classifier — they are never
invoked. -/
theorem unknown_category_rejected (gcls scls : List String)
    (sc1 : List ℚ → List ℚ) (mo1 : List ℚ → ℚ)
    (sc2 : List ℚ → List ℚ) (mo2 : List ℚ → ℚ)
    (hist : List HistoryDoc) (insertFails : Bool) (auth : Option String)
    (form : Form) (now : Nat) (ts : String) (p : Parsed)
    (hp : readForm form = .ok p)
    (hbad : p.gender ∉ gcls ∨ (p.gender ∈ gcls ∧ p.smoking_history ∉ scls)) :
    predict ⟨gcls, scls, sc1, mo1⟩ hist insertFails auth form now ts =
      (PredictResponse.invalidValue, hist) ∧
    predict ⟨gcls, scls, sc1, mo1⟩ hist insertFails auth form now ts =
      predict ⟨gcls, scls, sc2, mo2⟩ hist insertFails auth form now ts := by
  have key : ∀ (sc : List ℚ → List ℚ) (mo : List ℚ → ℚ),
      predict ⟨gcls, scls, sc, mo⟩ hist insertFails auth form now ts =
        (PredictResponse.invalidValue, hist) := by
    intro sc mo
    rcases hbad with hg | ⟨hgm, hsm⟩
    · exact predict_encode_error ⟨gcls, scls, sc, mo⟩ hist insertFails auth
        form now ts p hp (Or.inl ((leTransform_error_iff gcls p.gender).mpr hg))
    · obtain ⟨gi, hgi⟩ := leTransform_ok_of_mem gcls p.gender hgm
      exact predict_encode_error ⟨gcls, scls, sc, mo⟩ hist insertFails auth
        form now ts p hp
        (Or.inr ⟨gi, hgi, (leTransform_error_iff scls p.smoking_history).mpr hsm⟩)
  rw [key (sc1) mo1, key sc2 mo2]
  exact ⟨rfl, rfl⟩

/-- The sample form with smoking_history outside the fitted vocabulary. -/
def maybeForm : Form := mkForm "Female" "45" "0" "0" "maybe" "27.3" "6.1" "140"

/-- Parsed form of `maybeForm`. -/
def maybeParsed : Parsed := ⟨"Female", 45, 0, 0, "maybe", 273/10, 61/10, 140⟩

theorem readForm_maybe : readForm maybeForm = .ok maybeParsed :=
  readForm_mkForm "Female" "45" "0" "0" "maybe" "27.3" "6.1" "140"
    45 (273/10) (61/10) 140 0 0
    parseRat_45 parseInt_0 parseInt_0 parseRat_27_3 parseRat_6_1 parseRat_140

theorem unknown_category_rejected_witness :
    predict ⟨sampleEnv.genderClasses, sampleEnv.smokingClasses,
        sampleEnv.scaler, sampleEnv.model⟩ [] false (some "admin")
        maybeForm 3 "ts" = (PredictResponse.invalidValue, []) ∧
    predict ⟨sampleEnv.genderClasses, sampleEnv.smokingClasses,
        sampleEnv.scaler, sampleEnv.model⟩ [] false (some "admin")
        maybeForm 3 "ts" =
      predict ⟨sampleEnv.genderClasses, sampleEnv.smokingClasses,
        fun v => v, fun _ => 0⟩ [] false (some "admin") maybeForm 3 "ts" :=
  unknown_category_rejected sampleEnv.genderClasses sampleEnv.smokingClasses
    sampleEnv.scaler sampleEnv.model (fun v => v) (fun _ => 0)
    [] false (some "admin") maybeForm 3 "ts" maybeParsed readForm_maybe
    (Or.inr ⟨by decide, by decide⟩)

/-- C5: `get_history` returns only the named user's records, at most
`limit` of them, ordered newest-first on the `created_at` creation
instant; three records with increasing instants and limit 2 come back as
exactly the newest two, newest first; a user with no records gets the
empty list. -/
theorem get_history_spec :
    (∀ hist u limit x, x ∈ get_history hist u limit → x.username = u) ∧
    (∀ hist u limit, (get_history hist u limit).length ≤ limit) ∧
    (∀ hist u limit, (get_history hist u limit).Pairwise
        (fun a b => b.created_at ≤ a.created_at)) ∧
    (∀ r1 r2 r3 u, r1.username = u → r2.username = u → r3.username = u →
        r1.created_at < r2.created_at → r2.created_at < r3.created_at →
        get_history [r1, r2, r3] u 2 = [r3, r2]) ∧
    (∀ hist u limit, (∀ r ∈ hist, r.username ≠ u) →
        get_history hist u limit = []) :=
  ⟨username_of_mem_get_history, length_get_history,
   fun hist u limit => descOrdered_get_history hist u limit,
   get_history_three, get_history_no_records⟩

/-- A minimal history document with creation instant `n`. -/
def doc (n : Nat) : HistoryDoc :=
  ⟨"admin", "ts", [], "⚠️ High Diabetes Risk Detected", "diabetic", 72, n⟩

theorem get_history_spec_witness :
    get_history [doc 1, doc 2, doc 3] "admin" 2 = [doc 3, doc 2] ∧
    get_history [doc 1, doc 2, doc 3] "nurse" 50 = [] :=
  ⟨get_history_spec.2.2.2.1 (doc 1) (doc 2) (doc 3) "admin" rfl rfl rfl
      (by decide) (by decide),
   get_history_spec.2.2.2.2 [doc 1, doc 2, doc 3] "nurse" 50 (by decide)⟩

/-- C6: when the classifier only emits probabilities in [0,1], every
successful response's percentage is that probability times 100 rounded to
one decimal place and lies in [0,100]; and on the spec's example input
with the stub classifier fixed at probability 0.72 the route answers
percentage 72.0 with label diabetic. -/
theorem percentage_rounded_and_bounded :
    (∀ (env : Env) (hist : List HistoryDoc) (insertFails : Bool)
        (auth : Option String) (form : Form) (now : Nat) (ts : String)
        (r rt : String) (pr : ℚ) (hist' : List HistoryDoc),
      (∀ v, 0 ≤ env.model v ∧ env.model v ≤ 1) →
      predict env hist insertFails auth form now ts = (.ok r rt pr, hist') →
      ∃ prob, 0 ≤ prob ∧ prob ≤ 1 ∧ pr = round1 (prob * 100) ∧
        0 ≤ pr ∧ pr ≤ 100) ∧
    predict sampleEnv [] false none sampleForm 0 "ts" =
      (PredictResponse.ok "⚠️ High Diabetes Risk Detected" "diabetic" 72, []) := by
  constructor
  · intro env hist insertFails auth form now ts r rt pr hist' hm h
    obtain ⟨p, gi, si, -, -, -, hpr, -, -⟩ :=
      predict_ok_inv env hist insertFails auth form now ts r rt pr hist' h
    refine ⟨env.model (env.scaler (featureRow p gi si)),
      (hm _).1, (hm _).2, by simpa [probOf] using hpr, ?_, ?_⟩
    · rw [hpr]
      unfold probOf
      exact round1_nonneg _ (mul_nonneg (hm _).1 (by norm_num))
    · rw [hpr]
      unfold probOf
      apply round1_le_100
      have := (hm (env.scaler (featureRow p gi si))).2
      linarith
  · exact predict_sample_unauth

theorem percentage_rounded_and_bounded_witness :
    ∃ prob, 0 ≤ prob ∧ prob ≤ 1 ∧ (72 : ℚ) = round1 (prob * 100) ∧
      0 ≤ (72 : ℚ) ∧ (72 : ℚ) ≤ 100 :=
  percentage_rounded_and_bounded.1 sampleEnv [] false none sampleForm 0 "ts"
    _ _ _ _ (fun v => ⟨by norm_num [sampleEnv], by norm_num [sampleEnv]⟩)
    predict_sample_unauth

/-- C7: for a validated, encoded input the classifier receives the scaler's
output on exactly the 8-element row [gender_code, age, hypertension,
heart_disease, smoking_code, bmi, hba1c, glucose], in that order. -/
theorem feature_vector_order (env : Env) (hist : List HistoryDoc)
    (insertFails : Bool) (form : Form) (now : Nat) (ts : String)
    (p : Parsed) (gi si : Nat)
    (hp : readForm form = .ok p)
    (hgi : leTransform env.genderClasses p.gender = .ok gi)
    (hsi : leTransform env.smokingClasses p.smoking_history = .ok si) :
    predict env hist insertFails none form now ts =
      (PredictResponse.ok
        (resultOf (round1 (env.model (env.scaler
          [(gi : ℚ), p.age, (p.hypertension : ℚ), (p.heart_disease : ℚ),
           (si : ℚ), p.bmi, p.hba1c, p.glucose]) * 100)))
        (resultTypeOf (round1 (env.model (env.scaler
          [(gi : ℚ), p.age, (p.hypertension : ℚ), (p.heart_disease : ℚ),
           (si : ℚ), p.bmi, p.hba1c, p.glucose]) * 100)))
        (round1 (env.model (env.scaler
          [(gi : ℚ), p.age, (p.hypertension : ℚ), (p.heart_disease : ℚ),
           (si : ℚ), p.bmi, p.hba1c, p.glucose]) * 100)),
       hist) :=
  predict_char_unauth env hist insertFails form now ts p gi si hp hgi hsi

theorem feature_vector_order_witness :
    predict sampleEnv [] false none sampleForm 0 "ts" =
      (PredictResponse.ok
        (resultOf (round1 (sampleEnv.model (sampleEnv.scaler
          [((0 : ℕ) : ℚ), sampleParsed.age, (sampleParsed.hypertension : ℚ),
           (sampleParsed.heart_disease : ℚ), ((4 : ℕ) : ℚ), sampleParsed.bmi,
           sampleParsed.hba1c, sampleParsed.glucose]) * 100)))
        (resultTypeOf (round1 (sampleEnv.model (sampleEnv.scaler
          [((0 : ℕ) : ℚ), sampleParsed.age, (sampleParsed.hypertension : ℚ),
           (sampleParsed.heart_disease : ℚ), ((4 : ℕ) : ℚ), sampleParsed.bmi,
           sampleParsed.hba1c, sampleParsed.glucose]) * 100)))
        (round1 (sampleEnv.model (sampleEnv.scaler
          [((0 : ℕ) : ℚ), sampleParsed.age, (sampleParsed.hypertension : ℚ),
           (sampleParsed.heart_disease : ℚ), ((4 : ℕ) : ℚ), sampleParsed.bmi,
           sampleParsed.hba1c, sampleParsed.glucose]) * 100)),
       []) :=
  feature_vector_order sampleEnv [] false sampleForm 0 "ts" sampleParsed 0 4
    readForm_sample leT_sample_gender leT_sample_smoking

/-- The sample form with a negative age. -/
def negAgeForm : Form := mkForm "Female" "-5" "0" "0" "never" "27.3" "6.1" "140"

/-- Parsed form of `negAgeForm`. -/
def negAgeParsed : Parsed := ⟨"Female", -5, 0, 0, "never", 273/10, 61/10, 140⟩

theorem readForm_negAge : readForm negAgeForm = .ok negAgeParsed :=
  readForm_mkForm "Female" "-5" "0" "0" "never" "27.3" "6.1" "140"
    (-5) (273/10) (61/10) 140 0 0
    parseRat_neg5 parseInt_0 parseInt_0 parseRat_27_3 parseRat_6_1 parseRat_140

/-- C8 (counterexample): the route performs no positivity validation — a
form whose age parses to −5 still yields a successful prediction. -/
theorem positivity_unchecked_cex :
    parseRat? "-5" = some (-5) ∧ ((-5 : ℚ) ≤ 0) ∧
    readForm negAgeForm = .ok negAgeParsed ∧ negAgeParsed.age = -5 ∧
    predict sampleEnv [] false none negAgeForm 0 "ts" =
      (PredictResponse.ok "⚠️ High Diabetes Risk Detected" "diabetic" 72, []) := by
  refine ⟨parseRat_neg5, by norm_num, readForm_negAge, rfl, ?_⟩
  rw [predict_char_unauth sampleEnv [] false negAgeForm 0 "ts" negAgeParsed 0 4
        readForm_negAge leT_sample_gender leT_sample_smoking,
      probOf_sampleEnv, resultOf_sample, resultTypeOf_sample]

/-- C8 (amended): validation only demands presence and parseability — a
parsed input with a nonpositive age, bmi, HbA1c or glucose value still
produces a successful prediction (no range check exists). -/
theorem nonpositive_values_accepted (env : Env) (hist : List HistoryDoc)
    (form : Form) (now : Nat) (ts : String) (p : Parsed) (gi si : Nat)
    (hp : readForm form = .ok p)
    (hgi : leTransform env.genderClasses p.gender = .ok gi)
    (hsi : leTransform env.smokingClasses p.smoking_history = .ok si)
    (_hnp : p.age ≤ 0 ∨ p.bmi ≤ 0 ∨ p.hba1c ≤ 0 ∨ p.glucose ≤ 0) :
    ∃ r rt pr, predict env hist false none form now ts =
      (PredictResponse.ok r rt pr, hist) :=
  ⟨_, _, _, predict_char_unauth env hist false form now ts p gi si hp hgi hsi⟩

theorem nonpositive_values_accepted_witness :
    ∃ r rt pr, predict sampleEnv [] false none negAgeForm 0 "ts" =
      (PredictResponse.ok r rt pr, []) :=
  nonpositive_values_accepted sampleEnv [] negAgeForm 0 "ts" negAgeParsed 0 4
    readForm_negAge leT_sample_gender leT_sample_smoking (Or.inl (by norm_num [negAgeParsed]))

/-- C9: clearing a user's history empties that user's listing, is
idempotent, silently succeeds on a user with no records, and leaves every
other user's listing untouched. -/
theorem clear_history_spec :
    (∀ hist u limit, get_history (clear_user_history hist u) u limit = []) ∧
    (∀ hist u, clear_user_history (clear_user_history hist u) u =
        clear_user_history hist u) ∧
    (∀ hist u, (∀ r ∈ hist, r.username ≠ u) →
        clear_user_history hist u = hist) ∧
    (∀ hist u v limit, v ≠ u →
        get_history (clear_user_history hist u) v limit =
          get_history hist v limit) :=
  ⟨clear_then_list, clear_idem, clear_noop,
   fun hist u v limit h => clear_other_user hist u v h limit⟩

/-- A history document owned by a second user. -/
def docB (n : Nat) : HistoryDoc :=
  ⟨"doctor", "ts", [], "✅ Low Diabetes Risk", "not_diabetic", 20, n⟩

theorem clear_history_spec_witness :
    get_history (clear_user_history [doc 1, docB 2] "admin") "admin" 50 = [] ∧
    clear_user_history [doc 1, docB 2] "nurse" = [doc 1, docB 2] ∧
    get_history (clear_user_history [doc 1, docB 2] "admin") "doctor" 50 =
      get_history [doc 1, docB 2] "doctor" 50 :=
  ⟨clear_history_spec.1 [doc 1, docB 2] "admin" 50,
   clear_history_spec.2.2.1 [doc 1, docB 2] "nurse" (by decide),
   clear_history_spec.2.2.2 [doc 1, docB 2] "admin" "doctor" 50 (by decide)⟩

/-- C10: any integer-parseable hypertension value is accepted — the parsed
integer is fed raw at position 2 of the feature row, and the stored
history record displays it as Yes exactly when it is nonzero. -/
theorem int_fields_any_integer (env : Env) (hist : List HistoryDoc)
    (u : String) (form : Form) (now : Nat) (ts : String)
    (p : Parsed) (gi si : Nat) (s : String) (k : ℤ)
    (hp : readForm form = .ok p)
    (hs : formGet form "hypertension" = some s)
    (hk : parseInt? s = some k)
    (hgi : leTransform env.genderClasses p.gender = .ok gi)
    (hsi : leTransform env.smokingClasses p.smoking_history = .ok si) :
    p.hypertension = k ∧
    featureRow p gi si = [(gi : ℚ), p.age, (k : ℚ), (p.heart_disease : ℚ),
      (si : ℚ), p.bmi, p.hba1c, p.glucose] ∧
    predict env hist false (some u) form now ts =
      (PredictResponse.ok (resultOf (probOf env p gi si))
        (resultTypeOf (probOf env p gi si)) (probOf env p gi si),
       hist ++ [⟨u, ts,
         [("Gender", .s p.gender), ("Age", .q p.age),
          ("Hypertension", .s (if k ≠ 0 then "Yes" else "No")),
          ("Heart Disease", .s (if p.heart_disease ≠ 0 then "Yes" else "No")),
          ("Smoking History", .s p.smoking_history), ("BMI", .q p.bmi),
          ("HbA1c Level", .q p.hba1c), ("Blood Glucose", .q p.glucose)],
         resultOf (probOf env p gi si), resultTypeOf (probOf env p gi si),
         probOf env p gi si, now⟩]) := by
  have hpk : p.hypertension = k := by
    obtain ⟨-, -, ⟨s2, hs2, hk2⟩, -⟩ := readForm_ok_fields form p hp
    rw [hs] at hs2
    injection hs2 with he
    rw [he] at hk
    rw [hk2] at hk
    exact Option.some.inj hk
  refine ⟨hpk, by simp [featureRow, hpk], ?_⟩
  rw [predict_char_auth env hist u form now ts p gi si hp hgi hsi]
  simp [add_to_history, inputsDict, hpk]

/-- The sample form with hypertension set to the out-of-domain integer 2. -/
def hyper2Form : Form := mkForm "Female" "45" "2" "0" "never" "27.3" "6.1" "140"

/-- Parsed form of `hyper2Form`. -/
def hyper2Parsed : Parsed := ⟨"Female", 45, 2, 0, "never", 273/10, 61/10, 140⟩

theorem readForm_hyper2 : readForm hyper2Form = .ok hyper2Parsed :=
  readForm_mkForm "Female" "45" "2" "0" "never" "27.3" "6.1" "140"
    45 (273/10) (61/10) 140 2 0
    parseRat_45 parseInt_2 parseInt_0 parseRat_27_3 parseRat_6_1 parseRat_140

theorem int_fields_any_integer_witness :
    hyper2Parsed.hypertension = 2 ∧
    featureRow hyper2Parsed 0 4 = [((0 : ℕ) : ℚ), hyper2Parsed.age,
      ((2 : ℤ) : ℚ), (hyper2Parsed.heart_disease : ℚ), ((4 : ℕ) : ℚ),
      hyper2Parsed.bmi, hyper2Parsed.hba1c, hyper2Parsed.glucose] ∧
    predict sampleEnv [] false (some "admin") hyper2Form 7 "ts" =
      (PredictResponse.ok (resultOf (probOf sampleEnv hyper2Parsed 0 4))
        (resultTypeOf (probOf sampleEnv hyper2Parsed 0 4))
        (probOf sampleEnv hyper2Parsed 0 4),
       [] ++ [⟨"admin", "ts",
         [("Gender", .s hyper2Parsed.gender), ("Age", .q hyper2Parsed.age),
          ("Hypertension", .s "Yes"),
          ("Heart Disease", .s (if hyper2Parsed.heart_disease ≠ 0 then "Yes" else "No")),
          ("Smoking History", .s hyper2Parsed.smoking_history),
          ("BMI", .q hyper2Parsed.bmi), ("HbA1c Level", .q hyper2Parsed.hba1c),
          ("Blood Glucose", .q hyper2Parsed.glucose)],
         resultOf (probOf sampleEnv hyper2Parsed 0 4),
         resultTypeOf (probOf sampleEnv hyper2Parsed 0 4),
         probOf sampleEnv hyper2Parsed 0 4, 7⟩]) :=
  int_fields_any_integer sampleEnv [] "admin" hyper2Form 7 "ts" hyper2Parsed
    0 4 "2" 2 readForm_hyper2 rfl parseInt_2 leT_sample_gender leT_sample_smoking

end MediPulse
